import Mathlib

/-!
Verification of the distributed-coordination primitives of the `cut`
repository (`cut/distributed.py`), against its natural-language
specification.

The Python source is shallowly embedded below.  Times are modelled as
integers (the code uses epoch floats; every claim in scope depends only on
ordering and on addition of whole-second quantities, which the integers
reflect faithfully).  The Redis store cell for a lock key is modelled as
`Option Int` (`none` = key absent, `some v` = key present holding the
rendered number `v`).  The JSON text layer (`json.dumps` / `json.loads` of
parse trees) is the external standard library and is assumed correct: the
codec embedding works on parse trees, which is exactly the data the
repository's own code (`_CustomEncoder.default`, `_custom_decoder`)
manipulates.
-/

namespace Cut

/-! ## Sequential lock semantics (`Lock.release`, one `Lock.acquire` attempt)

Embeds `cut/distributed.py`, lines 129-164. -/

/-- Client-side state of a `Lock` instance: `__init__` stores `_expires`,
`_timeout` and `_start_time` (lines 129-133). -/
structure LockS where
  expires : Int
  timeout : Int
  start_time : Int
  deriving DecidableEq, Repr

/-- Lock construction (`Lock.__init__`, lines 129-133): `_start_time` is
initialised to the construction-time clock reading. -/
def lockInit (expires timeout ctime : Int) : LockS :=
  { expires := expires, timeout := timeout, start_time := ctime }

/-- Lock release (`Lock.release`, lines 160-164): deletes the key only when
`time.time() - self._start_time < self._expires`; otherwise no store
operation is performed at all. -/
def lockRelease (now : Int) (lk : LockS) (st : Option Int) : Option Int :=
  if now - lk.start_time < lk.expires then none else st

/-- Store contents observed by the three store accesses of one iteration of
`Lock.acquire` (lines 138-151): the value at the `setnx`, at the `get`, and
the value `getset` returns (= the value it atomically replaces).  Keeping
the three observations separate models interference by concurrent clients
between the non-atomic accesses. -/
structure AttemptObs where
  atSetnx : Option Int
  atGet : Option Int
  atGetset : Option Int
  deriving DecidableEq, Repr

/-- One iteration of the `Lock.acquire` loop body (lines 138-151), with the
clock reading `now` taken for this attempt.  Returns whether the attempt
reported the lock acquired, together with the value this client wrote to
the key (`none` when it performed no write): `setnx` writes on success;
`getset` writes unconditionally, and the attempt succeeds exactly when the
value `getset` returned equals the value previously read by `get`.  The
`getset` only runs when the read value exists and is stale
(`float(current_value) < time.time()`), per the short-circuit conjunction
on lines 148-149. -/
def lockAttempt (E now : Int) (obs : AttemptObs) : Bool × Option Int :=
  let e := now + E + 1
  match obs.atSetnx with
  | none => (true, some e)
  | some _ =>
    match obs.atGet with
    | some v =>
      if v < now then (decide (obs.atGetset = some v), some e)
      else (false, none)
    | none => (false, none)

/-- Blocking retry loop of `Lock.acquire` (lines 135-158), in the
sequential (single-client-step) view: attempt `k` runs at clock `tm k`
against store contents `stv k`; the three accesses of one attempt see the
same cell value (interference between attempts is captured by `stv`
varying with `k`).  `while timeout >= 0` guards each iteration; a failed
non-blocking attempt returns false immediately; a failed blocking attempt
decrements the budget by one and retries.  Returns the result together
with the number of attempts performed. -/
def acquireLoop (E : Int) (blocking : Bool) (tm : Nat → Int)
    (stv : Nat → Option Int) (k : Nat) (t : Int) : Bool × Nat :=
  if t < 0 then (false, k)
  else
    let now := tm k
    let acq := (lockAttempt E now ⟨stv k, stv k, stv k⟩).1
    if acq then (true, k + 1)
    else if blocking then acquireLoop E blocking tm stv (k + 1) (t - 1)
    else (false, k + 1)
  termination_by (t + 1).toNat
  decreasing_by omega

/-! ## Serialization codec (`dumps` / `loads`), distributed.py lines 174-218

`dumps` is `json.dumps(instance, cls=_CustomEncoder)` and `loads` is
`json.loads(state, object_hook=_custom_decoder)`.  The JSON text layer is
the assumed-correct standard library; the embedding works on parse trees,
which is the data the repository's own hooks receive and produce.  The
object hook is applied by `json.loads` to every decoded mapping,
innermost first, which the recursive `decode` below reproduces. -/

/-- JSON parse tree.  Numbers are restricted to integers, which suffices
for every claim in scope. -/
inductive JVal where
  | jnull
  | jbool (b : Bool)
  | jint (n : Int)
  | jstr (s : String)
  | jarr (xs : List JVal)
  | jobj (fs : List (String × JVal))
  deriving Repr

/-- The `Serializable` subclasses defined in distributed.py
(lines 52-171). -/
inductive DClass where
  | queue
  | counter
  | event
  | lock
  deriving DecidableEq, Repr

/-- Python class name (`instance.__class__.__name__`). -/
def DClass.pyName : DClass → String
  | .queue => "Queue"
  | .counter => "Counter"
  | .event => "Event"
  | .lock => "Lock"

/-- Python runtime values in scope of the codec: plain data plus instances
of the `Serializable` subclasses.  An instance carries its `__dict__` as an
association list. -/
inductive PVal where
  | pnull
  | pbool (b : Bool)
  | pint (n : Int)
  | pstr (s : String)
  | plist (xs : List PVal)
  | pdict (fs : List (String × PVal))
  | pinst (c : DClass) (attrs : List (String × PVal))
  deriving Repr

/-- Python truthiness (`bool(v)` / use in `or` and `if`). -/
def pyFalsy : PVal → Bool
  | .pnull => true
  | .pbool b => !b
  | .pint n => n = 0
  | .pstr s => s = ""
  | .plist xs => xs.isEmpty
  | .pdict fs => fs.isEmpty
  | .pinst _ _ => false

/-- Rendering used by the `'%s'` / string concatenation on private fields
(`_key`, line 48).  Scalar cases follow CPython `str`; container rendering
is never observed by any claim (the rendered text only ever lands in a
private, underscore-prefixed attribute) and is given a placeholder. -/
def pyRender : PVal → String
  | .pstr s => s
  | .pint n => toString n
  | .pbool true => "True"
  | .pbool false => "False"
  | .pnull => "None"
  | .plist _ => "<list repr unmodelled>"
  | .pdict _ => "<dict repr unmodelled>"
  | .pinst _ _ => "<instance repr unmodelled>"

/-- Python `str.lower()`, as character-wise lowering of the text. -/
def pyLower (s : String) : String :=
  String.mk (s.data.map Char.toLower)

/-- Association-list lookup (Python dict subscript / `dict.get`). -/
def lookupField (fs : List (String × PVal)) (k : String) : Option PVal :=
  match fs with
  | [] => none
  | (k2, v) :: rest => if k2 = k then some v else lookupField rest k

/-- Attribute dictionary produced by `_DistributedBase.__init__`
(lines 43-49) when an explicit key is supplied: stores `key`, `_key`
(`'distributed:%s:%s' % (namespace, self.key)` with the namespace
defaulting, via Python `or`, to the lower-cased class name) and `_redis`
(`redis or _connection`; the module-level `_connection` of an
uninitialised process is `None`). -/
def pyBaseAttrs (c : DClass) (key redis nsArg : PVal) : List (String × PVal) :=
  let nsStr := if pyFalsy nsArg then pyLower c.pyName else pyRender nsArg
  [ ("key", key),
    ("_key", .pstr ("distributed:" ++ nsStr ++ ":" ++ pyRender key)),
    ("_redis", if pyFalsy redis then .pnull else redis) ]

/-- Instance produced by constructing a `Queue`, `Counter` or `Event` with
an explicit key (their `__init__` is `_DistributedBase.__init__`). -/
def pyInit (c : DClass) (key redis nsArg : PVal) : PVal :=
  .pinst c (pyBaseAttrs c key redis nsArg)

/-- Instance produced by `Lock.__init__` (lines 129-133): runs the base
initialiser with the namespace argument fixed to `None` (the `super` call
on line 130 forwards only `key` and `redis`), then records `_expires`,
`_timeout` and `_start_time` (the construction-time clock reading). -/
def pyLockInit (key expires timeoutArg redis : PVal) (ctime : Int) : PVal :=
  .pinst .lock (pyBaseAttrs .lock key redis .pnull ++
    [("_expires", expires), ("_timeout", timeoutArg), ("_start_time", .pint ctime)])

/-- The `key.startswith('_')` test of lines 183 and 47: whether the first
character of the name is an underscore. -/
def pyUnderscored (s : String) : Bool :=
  s.data.head? = some '_'

/-- Public (non-underscore-prefixed) slice of an attribute dictionary: the
state `_CustomEncoder.default` extracts (lines 181-184). -/
def listPublic (attrs : List (String × PVal)) : List (String × PVal) :=
  attrs.filter (fun kv => !(pyUnderscored kv.1))

/-- Class of an instance value, if it is one. -/
def instClass : PVal → Option DClass
  | .pinst c _ => some c
  | _ => none

/-- Public state of an instance value, if it is one. -/
def instPublicState : PVal → Option (List (String × PVal))
  | .pinst _ attrs => some (listPublic attrs)
  | _ => none

mutual

/-- Encoder (`dumps`, lines 190-200, with `_CustomEncoder.default`,
lines 174-187): plain data encodes structurally; a `Serializable` instance
(none of the four classes defines `__serialize__`, so the default
attribute-copy rule applies) encodes as the tagged envelope
`{"__distributed_type__": <class name>, "state": <public attributes>}`. -/
def encode : PVal → JVal
  | .pnull => .jnull
  | .pbool b => .jbool b
  | .pint n => .jint n
  | .pstr s => .jstr s
  | .plist xs => .jarr (encodeList xs)
  | .pdict fs => .jobj (encodeFields fs)
  | .pinst c attrs =>
      .jobj [ ("__distributed_type__", .jstr c.pyName),
              ("state", .jobj (encodeFieldsPub attrs)) ]

def encodeList : List PVal → List JVal
  | [] => []
  | v :: rest => encode v :: encodeList rest

def encodeFields : List (String × PVal) → List (String × JVal)
  | [] => []
  | (k, v) :: rest => (k, encode v) :: encodeFields rest

/-- Encoding of an instance's `__dict__` with underscore-prefixed keys
removed (the copy-then-delete loop of lines 181-184). -/
def encodeFieldsPub : List (String × PVal) → List (String × JVal)
  | [] => []
  | (k, v) :: rest =>
      if pyUnderscored k then encodeFieldsPub rest
      else (k, encode v) :: encodeFieldsPub rest

end

/-- Exceptions the embedded decoding and queue code can raise.  The code
defines no `DecodeError` anywhere; a failed `globals()[...]` lookup raises
`KeyError`, a bad keyword argument raises `TypeError`, `iteritems` on a
non-mapping raises `AttributeError`, and `Queue.get` raises `Empty`.
`notModeled` marks the two branches whose outcome is outside every claim's
scope: constructing with an auto-generated key (store I/O, line 45), and
resolving a tag that names a module global that is not one of the four
`Serializable` classes (`globals()` lookup succeeds and an arbitrary
callable is invoked; no claim depends on the result). -/
inductive PyErr where
  | keyError
  | typeError
  | attributeError
  | empty
  | notModeled
  deriving DecidableEq, Repr

/-- Entry found in distributed.py's module namespace. -/
inductive GEntry where
  | cls (c : DClass)
  | other
  deriving DecidableEq, Repr

/-- Module namespace of distributed.py, as consulted by `globals()[...]`
on line 205: the four `Serializable` classes plus every other module-level
name (imports, exceptions, helpers, functions, module dunders). -/
def distGlobals (s : String) : Option GEntry :=
  if s = "Queue" then some (.cls .queue)
  else if s = "Counter" then some (.cls .counter)
  else if s = "Event" then some (.cls .event)
  else if s = "Lock" then some (.cls .lock)
  else if s ∈ ["Empty", "Redis", "json", "time", "DistributedError",
      "LockTimeout", "Serializable", "_DistributedBase", "_CustomEncoder",
      "dumps", "_custom_decoder", "loads", "_connection", "init",
      "__author__", "__name__", "__doc__", "__file__", "__builtins__",
      "__package__"] then some .other
  else none

/-- Keyword-argument application of a class constructor (`cls(**kwargs)`,
line 211).  `Queue`/`Counter`/`Event` accept `key`, `redis`, `namespace`
(signature of `_DistributedBase.__init__`, line 43); `Lock` accepts `key`,
`expires`, `timeout`, `redis` (line 129); an unexpected keyword raises
`TypeError`.  A missing or `None` key triggers auto-key generation through
the shared counter, which performs store I/O (line 45) and is out of the
pure model's scope. -/
def callClass (c : DClass) (kw : List (String × PVal)) (now : Int) :
    Except PyErr PVal :=
  let allowed : List String :=
    match c with
    | .lock => ["key", "expires", "timeout", "redis"]
    | _ => ["key", "redis", "namespace"]
  if kw.all (fun kv => kv.1 ∈ allowed) then
    match (lookupField kw "key").getD .pnull with
    | .pnull => .error .notModeled
    | keyArg =>
      let rd := (lookupField kw "redis").getD .pnull
      match c with
      | .lock =>
          let ex := (lookupField kw "expires").getD (.pint 60)
          let ti := (lookupField kw "timeout").getD (.pint 10)
          .ok (pyLockInit keyArg ex ti rd now)
      | _ =>
          let ns := (lookupField kw "namespace").getD .pnull
          .ok (pyInit c keyArg rd ns)
  else .error .typeError

/-- The `object_hook` (`_custom_decoder`, lines 203-213), applied to a
decoded mapping: a mapping without the `__distributed_type__` marker
passes through unchanged; otherwise the tag is resolved in the module
namespace (`KeyError` when absent — the tag must also be a string, since a
non-string key is not present in `globals()`), the `state` entry is
fetched (`KeyError` when missing) and must be a mapping
(`AttributeError` otherwise, from `.iteritems()`), and the class is
invoked with the state as keyword arguments (none of the four classes has
`__deserialize__`, so the `cls(**kwargs)` branch runs). -/
def customDecoder (fs : List (String × PVal)) (now : Int) :
    Except PyErr PVal :=
  match lookupField fs "__distributed_type__" with
  | none => .ok (.pdict fs)
  | some tagv =>
    match tagv with
    | .pstr s =>
      match distGlobals s with
      | none => .error .keyError
      | some .other => .error .notModeled
      | some (.cls c) =>
        match lookupField fs "state" with
        | none => .error .keyError
        | some st =>
          match st with
          | .pdict kw => callClass c kw now
          | _ => .error .attributeError
    | _ => .error .keyError

/-- Insertion step of duplicate-key collapsing: a later occurrence of a
key overwrites the earlier value. -/
def upsert (acc : List (String × PVal)) (kv : String × PVal) :
    List (String × PVal) :=
  match acc with
  | [] => [kv]
  | hd :: tl => if hd.1 = kv.1 then (kv.1, kv.2) :: tl else hd :: upsert tl kv

/-- Duplicate keys in a JSON object collapse, keeping the last value, when
`json.loads` builds the Python dict that the hook receives. -/
def dedupLast (fs : List (String × PVal)) : List (String × PVal) :=
  fs.foldl upsert []

mutual

/-- Decoder (`loads`, lines 216-218): structural JSON decoding with the
object hook applied to every mapping, innermost first.  `now` is the clock
reading of the decoding process (a reconstructed `Lock` records it as its
`_start_time`). -/
def decode (now : Int) : JVal → Except PyErr PVal
  | .jnull => .ok .pnull
  | .jbool b => .ok (.pbool b)
  | .jint n => .ok (.pint n)
  | .jstr s => .ok (.pstr s)
  | .jarr xs => Except.map .plist (decodeList now xs)
  | .jobj fs =>
      Except.bind (decodeFields now fs)
        (fun fs2 => customDecoder (dedupLast fs2) now)

def decodeList (now : Int) : List JVal → Except PyErr (List PVal)
  | [] => .ok []
  | j :: rest =>
      Except.bind (decode now j) (fun v =>
        Except.map (fun vs => v :: vs) (decodeList now rest))

def decodeFields (now : Int) : List (String × JVal) →
    Except PyErr (List (String × PVal))
  | [] => .ok []
  | (k, j) :: rest =>
      Except.bind (decode now j) (fun v =>
        Except.map (fun vs => (k, v) :: vs) (decodeFields now rest))

end

mutual

/-- Plain data in the sense of the codec spec: built only from primitive
scalars, sequences and mappings, with no mapping carrying the
tagged-envelope marker key, and (being genuine Python dicts) no mapping
with duplicate keys. -/
def plainB : PVal → Bool
  | .pnull => true
  | .pbool _ => true
  | .pint _ => true
  | .pstr _ => true
  | .plist xs => plainListB xs
  | .pdict fs =>
      (lookupField fs "__distributed_type__").isNone &&
      decide (fs.map Prod.fst).Nodup && plainFieldsB fs
  | .pinst _ _ => false

def plainListB : List PVal → Bool
  | [] => true
  | v :: rest => plainB v && plainListB rest

def plainFieldsB : List (String × PVal) → Bool
  | [] => true
  | (_, v) :: rest => plainB v && plainFieldsB rest

end

/-- Attribute access on an instance value (`self.<name>`). -/
def instAttr (v : PVal) (name : String) : Option PVal :=
  match v with
  | .pinst _ attrs => lookupField attrs name
  | _ => none

/-- Store key targeted by the store operations of `Queue`, `Event` and
`Lock`: every one of their methods passes literally `self._key` — `llen`
(line 56), `rpush` (62), `blpop` (66), `lpop` (70); `subscribe` (102),
`unsubscribe` (110), `exists` (113), `set` (116), `publish` (117),
`delete` (120); `setnx` (140), `get` (145), `getset` (149),
`delete` (164). -/
def memberOpTarget (v : PVal) : Option PVal :=
  instAttr v "_key"

/-- Key targeted by `Counter.increment` (line 81): the literal
concatenation `'distributed:counter:' + self.key`, written independently
of `self._key` and hence of the namespace the counter was constructed
with.  (String keys only: `+` of `str` and a non-string raises
`TypeError`, modelled as `none`.) -/
def counterIncrementTarget (v : PVal) : Option String :=
  match instAttr v "key" with
  | some (.pstr s) => some ("distributed:counter:" ++ s)
  | _ => none

/-- Membership in the code's own `DistributedError` exception hierarchy
(lines 24-29).  No decoding failure belongs to it: the code defines no
`DecodeError` class at all, and the failures the decoder can raise are
the builtin `KeyError`, `TypeError` and `AttributeError`. -/
def PyErr.isDistributedError : PyErr → Bool := fun _ => false

/-! ## Queue.get (lines 64-73) -/

/-- Mapping the `timeout` argument onto the value handed to `blpop`
(`timeout or 0`, line 66): an unspecified timeout and a timeout of `0`
both become `0`, the backing store's "block indefinitely". -/
def blpopTimeoutArg : Option Int → Int
  | none => 0
  | some x => if x = 0 then 0 else x

/-- Non-blocking `Queue.get` (`lpop`, lines 70-73): pops the head
immediately; `lpop` of an empty list yields `None` and `Empty` is raised;
otherwise the popped serialized text is deserialized with `loads`.
Returns the result together with the remaining list. -/
def queueGetNonblock (now : Int) (lst : List JVal) :
    Except PyErr PVal × List JVal :=
  match lst with
  | [] => (.error .empty, [])
  | h :: t => (decode now h, t)

/-- Blocking `Queue.get` (`blpop`, lines 66-73): the backing store's
blocking pop either returns an element (whose value part the code takes)
or `None` once the requested timeout elapsed with nothing available;
`Empty` is raised exactly in the latter case, and otherwise the element is
deserialized with `loads`. -/
def queueGetBlock (now : Int) (blpopRes : Option JVal) : Except PyErr PVal :=
  match blpopRes with
  | none => .error .empty
  | some j => decode now j

/-! ## Event.wait (lines 96-110) -/

/-- Channel-subscription side effects performed by `Event.wait`. -/
inductive EEff where
  | subscribe
  | unsubscribe
  deriving DecidableEq, Repr

/-- An item produced by the blocking `pubsub.listen()` generator: a pubsub
entry with its `type` field, or a failure raised while receiving.
(Executions in which `listen()` blocks forever have no exit and are not
modelled.) -/
inductive PubsubItem where
  | item (mtype : String)
  | fail
  deriving DecidableEq, Repr

/-- The `for m in pubsub.listen()` loop (lines 106-108): returns `True` on
the first entry whose `type` is `"message"`; skips other entries; a
receive failure propagates; generator exhaustion falls off the function
end (Python then returns `None`). -/
def eventWaitLoop : List PubsubItem → Except Unit (Option Bool)
  | [] => .ok none
  | .item t :: rest =>
      if t = "message" then .ok (some true) else eventWaitLoop rest
  | .fail :: _ => .error ()

/-- `Event.wait` (lines 96-110): an event already set at entry returns
`True` with no channel interaction at all; otherwise the channel is
subscribed, `is_set()` is re-checked before blocking (`setAfterSub` is
that second existence check), and the `try/finally` unsubscribes on every
exit of the listen phase, including failures.  Result paired with the
ordered list of channel side effects. -/
def eventWait (setAtEntry setAfterSub : Bool) (items : List PubsubItem) :
    Except Unit (Option Bool) × List EEff :=
  if setAtEntry then (.ok (some true), [])
  else
    let r := if setAfterSub then .ok (some true) else eventWaitLoop items
    (r, [.subscribe, .unsubscribe])

/-! ## Lock.acquire under concurrent interleaving (claim C1)

A small-step system for two `Lock` instances bound to the same key,
sharing the store cell, with a global clock.  Each Redis round-trip of
`Lock.acquire` (lines 135-158) and `Lock.release` (lines 160-164) is one
atomic step; steps of the two clients interleave arbitrarily, and the
clock advances by arbitrary positive amounts between steps (`tick`).  The
`sync` flag restricts traces to those in which the clock does not advance
while a client is between computing its lease deadline and completing the
store write of the same attempt (the phases `comp`, `snxF`, `readV`,
`staleOk`); unrestricted traces (`sync = false`) are the general
asynchronous semantics of the source. -/

/-- Constructor configuration of one `Lock` instance (lines 129-133). -/
structure PCfg where
  E : Int
  timeout : Int
  blocking : Bool
  deriving DecidableEq, Repr

/-- Control point of one client inside `acquire`/`release`.
`loopTop t`: about to test `while timeout >= 0` with budget `t`;
`comp t e`: computed `expires = now + E + 1` (line 138), about to `setnx`;
`snxF t e`: `setnx` failed, about to `get` (line 145);
`readV t e v`: read `v`, about to test staleness (line 148);
`staleOk t e w`: read value `w` was present and stale, about to `getset`;
`noStale t`: attempt failed, about to test `blocking` (line 153);
`holding s`: `acquire` returned `True` with `_start_time = s`;
`failed`: `acquire` returned `False`; `released`: `release()` completed. -/
inductive Phase where
  | idle
  | loopTop (t : Int)
  | comp (t e : Int)
  | snxF (t e : Int)
  | readV (t e : Int) (v : Option Int)
  | staleOk (t e w : Int)
  | noStale (t : Int)
  | holding (s : Int)
  | failed
  | released
  deriving DecidableEq, Repr

/-- One client: its constructor configuration and control point. -/
structure PSt where
  cfg : PCfg
  ph : Phase
  deriving DecidableEq, Repr

/-- Global state: clock, the shared store cell at the lock key, and the
two clients. -/
structure CSt where
  now : Int
  store : Option Int
  p : PSt
  q : PSt
  deriving DecidableEq, Repr

/-- One atomic step of a single client, at clock `now` against store
contents `store`: the next control point and the new store contents.
Transcribes lines 135-158 and 160-164 one store round-trip at a time;
`holding → released` is the client invoking `release()` (which deletes
the key only when its lease, measured from its own `_start_time`, has not
yet elapsed). -/
def lstep (c : PCfg) (ph : Phase) (store : Option Int) (now : Int) :
    Phase × Option Int :=
  match ph with
  | .idle => (.loopTop c.timeout, store)
  | .loopTop t =>
      if t < 0 then (.failed, store) else (.comp t (now + c.E + 1), store)
  | .comp t e =>
      match store with
      | none => (.holding now, some e)
      | some _ => (.snxF t e, store)
  | .snxF t e => (.readV t e store, store)
  | .readV t e v =>
      match v with
      | some w => if w < now then (.staleOk t e w, store) else (.noStale t, store)
      | none => (.noStale t, store)
  | .staleOk t e w =>
      if store = some w then (.holding now, some e) else (.noStale t, some e)
  | .noStale t =>
      if c.blocking then (.loopTop (t - 1), store) else (.failed, store)
  | .holding s =>
      if now - s < c.E then (.released, none) else (.released, store)
  | .failed => (.failed, store)
  | .released => (.released, store)

/-- Effect of one step of the first client on the global state. -/
def doP (s : CSt) : CSt :=
  let r := lstep s.p.cfg s.p.ph s.store s.now
  { s with p := { s.p with ph := r.1 }, store := r.2 }

/-- Effect of one step of the second client on the global state. -/
def doQ (s : CSt) : CSt :=
  let r := lstep s.q.cfg s.q.ph s.store s.now
  { s with q := { s.q with ph := r.1 }, store := r.2 }

/-- Control points between a client's lease-deadline computation and the
store write concluding the same attempt. -/
def pending : Phase → Bool
  | .comp _ _ => true
  | .snxF _ _ => true
  | .readV _ _ _ => true
  | .staleOk _ _ _ => true
  | _ => false

/-- Interleaving step: either client performs its next atomic operation,
or the clock advances by a positive amount.  With `sync = true` the clock
may not advance while either client is mid-attempt. -/
inductive Step : Bool → CSt → CSt → Prop where
  | tick (sync : Bool) (s : CSt) (d : Nat)
      (h : sync = true → pending s.p.ph = false ∧ pending s.q.ph = false) :
      Step sync s { s with now := s.now + (d + 1) }
  | pstep (sync : Bool) (s : CSt) : Step sync s (doP s)
  | qstep (sync : Bool) (s : CSt) : Step sync s (doQ s)

/-- Reachability through interleaving steps. -/
def Reach (sync : Bool) (s0 s : CSt) : Prop :=
  Relation.ReflTransGen (Step sync) s0 s

/-- Initial state: both instances freshly constructed and inactive, with
an arbitrary pre-existing store cell (a leftover lease of an earlier
holder, per the data-model invariant of the spec) and an arbitrary clock
origin. -/
def initSt (n0 : Int) (store0 : Option Int) (cp cq : PCfg) : CSt :=
  { now := n0, store := store0, p := ⟨cp, .idle⟩, q := ⟨cq, .idle⟩ }

/-- A client holds an unexpired lease: `acquire` reported true with
start time `s`, `release` has not run, and the lease duration has not
elapsed (`now - s < expires`, the same measure `release` uses). -/
def liveHolder (now : Int) (x : PSt) : Bool :=
  match x.ph with
  | .holding s => decide (now - s < x.cfg.E)
  | _ => false

/-- Schedule entry for exhibiting concrete interleavings. -/
inductive Act where
  | ap
  | aq
  | atick (d : Nat)
  deriving Repr

/-- Apply one schedule entry. -/
def runAct (s : CSt) : Act → CSt
  | .ap => doP s
  | .aq => doQ s
  | .atick d => { s with now := s.now + (d + 1) }

/-- Run a schedule. -/
def run (s : CSt) : List Act → CSt
  | [] => s
  | a :: rest => run (runAct s a) rest

/-- Per-client inductive invariant of the synchronous system, with both
instances sharing lease duration `E`: a holder's start time is in the
past and, while its lease is unexpired, the store cell holds a deadline no
smaller than `start + E + 1`; a mid-attempt client's computed deadline is
`now + E + 1`; a client about to `getset` saw a value that is stale now. -/
def pinv (E now : Int) (store : Option Int) (x : PSt) : Prop :=
  match x.ph with
  | .holding s => s ≤ now ∧ (now - s < E → ∃ w, store = some w ∧ s + E + 1 ≤ w)
  | .comp _ e => e = now + E + 1
  | .snxF _ e => e = now + E + 1
  | .readV _ e _ => e = now + E + 1
  | .staleOk _ e w => e = now + E + 1 ∧ w < now
  | _ => True

/-- Global inductive invariant: both instances configured with lease
duration `E`, mutual exclusion of unexpired holders, and the per-client
conditions. -/
def INV (E : Int) (s : CSt) : Prop :=
  s.p.cfg.E = E ∧ s.q.cfg.E = E ∧
  ¬(liveHolder s.now s.p = true ∧ liveHolder s.now s.q = true) ∧
  pinv E s.now s.store s.p ∧ pinv E s.now s.store s.q

/-- Initial state of the concrete violating interleaving for claim C1:
clock at 1, a stale leftover lease deadline 0 in the store (a prior
holder that crashed without releasing), instance `p` with a 9-second
lease and instance `q` with a 1-second lease, both blocking with the
default budget. -/
def c1CexInit : CSt :=
  initSt 1 (some 0) ⟨9, 10, true⟩ ⟨1, 10, true⟩

/-- Schedule of the violating interleaving: `q` runs its attempt up to
the staleness check; `p` runs a full attempt, reclaiming the stale lease
via `getset` (start time 1, writing deadline 11); `q`'s pending `getset`
then fails its exchange comparison but still overwrites the cell with
`q`'s deadline 3, computed from `q`'s 1-second lease; after the clock
reaches 4 that deadline is itself stale while `p`'s lease is still live,
so `q`'s retry reclaims it (start time 4) — and both clients hold
unexpired leases. -/
def c1CexScript : List Act :=
  [.aq, .aq, .aq, .aq, .aq,
   .ap, .ap, .ap, .ap, .ap, .ap,
   .aq, .aq, .atick 2,
   .aq, .aq, .aq, .aq, .aq]

/-! ## Theorems -/

/-- C2: `Lock.release` deletes the lock key if and only if the elapsed
time since acquisition is strictly less than the configured lease duration
(`now - start_time < expires`); once the lease has elapsed it performs no
store operation at all, leaving the cell unchanged — in particular a value
`w` a subsequent holder has since written survives.  (The method's only
store access is the conditional `delete` of its own key, so the rest of
the store is untouched on every path.) -/
theorem c2_release_deletes_iff_within_lease
    (now start E t0 w : Int) (st : Option Int) :
    (lockRelease now (lockInit E t0 start) (some w) = none ↔ now - start < E)
    ∧ (E ≤ now - start → lockRelease now (lockInit E t0 start) st = st) := by
  unfold lockRelease lockInit
  dsimp only
  constructor
  · split
    · simp_all
    · simp_all
  · intro h
    split
    · omega
    · rfl

/-- Witness for C2 at concrete inputs: a release 3 seconds into a
5-second lease deletes the key; a release 9 seconds after acquisition
leaves a subsequent holder's value `99` in place. -/
theorem c2_release_deletes_iff_within_lease_witness :
    lockRelease 3 (lockInit 5 10 0) (some 77) = none
    ∧ lockRelease 9 (lockInit 5 10 0) (some 99) = some 99 := by
  constructor
  · exact (c2_release_deletes_iff_within_lease 3 0 5 10 77 (some 77)).1.mpr
      (by norm_num)
  · exact (c2_release_deletes_iff_within_lease 9 0 5 10 99 (some 99)).2
      (by norm_num)

/-- C10: on a `Lock` that never acquired, `_start_time` still holds the
construction-time clock reading (line 133), so `release()` within
`expires` of construction deletes the lock key unconditionally — even
when the cell holds a value `w` written by a different, current holder. -/
theorem c10_release_before_acquire_deletes
    (ctime E t0 now w : Int) (h : now - ctime < E) :
    lockRelease now (lockInit E t0 ctime) (some w) = none := by
  unfold lockRelease lockInit
  simp [h]

/-- Witness for C10: an instance constructed at time 0 with the default
60-second lease, never having acquired, releases at time 1 and deletes a
cell holding another holder's deadline 500. -/
theorem c10_release_before_acquire_deletes_witness :
    lockRelease 1 (lockInit 60 10 0) (some 500) = none :=
  c10_release_before_acquire_deletes 0 60 10 1 500 (by norm_num)

/-- C3: in an `acquire` attempt whose `setnx` failed and whose read value
`v` denotes a deadline already in the past, the client overwrites the cell
with its new lease deadline `now + expires + 1` via `getset`
unconditionally, and reports the lock acquired exactly when the value the
exchange returned equals the value previously read; in particular, with no
competing overwrite between the read and the exchange, a stale lock is
acquired by the new contender. -/
theorem c3_stale_reclaim_getset
    (E now w v : Int) (g : Option Int) (h : v < now) :
    lockAttempt E now ⟨some w, some v, g⟩
      = (decide (g = some v), some (now + E + 1))
    ∧ lockAttempt E now ⟨some v, some v, some v⟩
      = (true, some (now + E + 1)) := by
  constructor
  · simp [lockAttempt, h]
  · simp [lockAttempt, h]

/-- Witness for C3: with a stale stored deadline 3 at time 10 and lease
duration 60, an undisturbed exchange acquires the lock and writes
deadline 71; an exchange that returned a competitor's value 70 instead of
the value read reports failure (while still having overwritten the cell). -/
theorem c3_stale_reclaim_getset_witness :
    lockAttempt 60 10 ⟨some 3, some 3, some 3⟩ = (true, some 71)
    ∧ lockAttempt 60 10 ⟨some 3, some 3, some 70⟩ = (false, some 71) := by
  constructor
  · have h := (c3_stale_reclaim_getset 60 10 3 3 (some 3) (by norm_num)).2
    simpa using h
  · have h := (c3_stale_reclaim_getset 60 10 3 3 (some 70) (by norm_num)).1
    simpa using h

/-- One acquisition attempt against a continuously held, unexpired lease
fails: the `setnx` finds the key present and the staleness test finds the
stored deadline not yet in the past. -/
theorem lockAttempt_held_fails (E now v : Int) (h : now ≤ v) :
    lockAttempt E now ⟨some v, some v, some v⟩ = (false, none) := by
  simp [lockAttempt]
  omega

/-- Blocking `acquire` against a continuously held lease: peeling one
loop iteration. -/
theorem acquireLoop_held_step (E : Int) (tm : Nat → Int)
    (stv : Nat → Option Int) (hheld : ∀ k, ∃ v, stv k = some v ∧ tm k ≤ v)
    (k : Nat) (t : Int) (ht : ¬ t < 0) :
    acquireLoop E true tm stv k t = acquireLoop E true tm stv (k + 1) (t - 1) := by
  obtain ⟨v, hv, hle⟩ := hheld k
  rw [acquireLoop.eq_def]
  simp [ht, hv, lockAttempt_held_fails E (tm k) v hle]

/-- Blocking `acquire` against a continuously held lease, with a
natural-number budget: fails after exactly `n + 1` attempts. -/
theorem acquireLoop_held_nat (E : Int) (tm : Nat → Int)
    (stv : Nat → Option Int) (hheld : ∀ k, ∃ v, stv k = some v ∧ tm k ≤ v) :
    ∀ (n : Nat) (k : Nat),
      acquireLoop E true tm stv k (n : Int) = (false, k + n + 1) := by
  intro n
  induction n with
  | zero =>
    intro k
    have h0 : ((0 : Nat) : Int) = 0 := by norm_num
    rw [h0, acquireLoop_held_step E tm stv hheld k 0 (by norm_num)]
    rw [acquireLoop.eq_def]
    norm_num
  | succ m ih =>
    intro k
    rw [acquireLoop_held_step E tm stv hheld k (m + 1 : Nat) (by omega)]
    have : ((m + 1 : Nat) : Int) - 1 = (m : Int) := by push_cast; ring
    rw [this, ih (k + 1)]
    congr 1
    omega

/-- C8: against a lock key that continuously holds an unexpired lease
(`stv k` present and not stale at the clock reading `tm k` of attempt
`k`), `acquire` terminates returning false: non-blocking, immediately
after the single failed attempt; blocking, after retrying in polling
steps that decrement the timeout budget by one each, making
`timeout + 1` attempts in all (11 with the default budget of 10) and
returning false once the budget is exhausted. -/
theorem c8_acquire_returns_false_when_held (E : Int) (tm : Nat → Int)
    (stv : Nat → Option Int)
    (hheld : ∀ k, ∃ v, stv k = some v ∧ tm k ≤ v) :
    (∀ t0 : Int, 0 ≤ t0 →
      acquireLoop E true tm stv 0 t0 = (false, t0.toNat + 1))
    ∧ (∀ t0 : Int, 0 ≤ t0 →
      acquireLoop E false tm stv 0 t0 = (false, 1)) := by
  constructor
  · intro t0 ht0
    have hcast : ((t0.toNat : Nat) : Int) = t0 := Int.toNat_of_nonneg ht0
    have h := acquireLoop_held_nat E tm stv hheld t0.toNat 0
    rw [hcast] at h
    simpa using h
  · intro t0 ht0
    obtain ⟨v, hv, hle⟩ := hheld 0
    rw [acquireLoop.eq_def]
    simp [show ¬ t0 < 0 by omega, hv,
      lockAttempt_held_fails E (tm 0) v hle]

/-- Witness for C8: with the default budget of 10 against a permanently
live lease (stored deadline 1000, clock fixed at 0), blocking `acquire`
returns false after 11 attempts and non-blocking `acquire` after one. -/
theorem c8_acquire_returns_false_when_held_witness :
    acquireLoop 60 true (fun _ => 0) (fun _ => some 1000) 0 10 = (false, 11)
    ∧ acquireLoop 60 false (fun _ => 0) (fun _ => some 1000) 0 10 = (false, 1) := by
  have h := c8_acquire_returns_false_when_held 60 (fun _ => 0)
    (fun _ => some 1000) (fun _ => ⟨1000, rfl, by norm_num⟩)
  constructor
  · have h1 := h.1 10 (by norm_num)
    simpa using h1
  · exact h.2 10 (by norm_num)

/-- C6: `Event.wait` returns true immediately, with no channel
interaction at all, whenever the event key exists at entry; otherwise it
subscribes, re-checks `is_set()` before blocking on receive (returning
true if now set), and on every exit of the waiting phase — normal return,
generator exhaustion or receive failure — the effect trace is exactly a
subscribe followed by an unsubscribe. -/
theorem c6_event_wait_unsubscribes (entry afterSub : Bool)
    (items : List PubsubItem) :
    (entry = true → eventWait entry afterSub items = (.ok (some true), []))
    ∧ (entry = false →
        (eventWait entry afterSub items).2 = [.subscribe, .unsubscribe]
        ∧ (afterSub = true →
            (eventWait entry afterSub items).1 = .ok (some true))) := by
  constructor
  · intro h
    subst h
    rfl
  · intro h
    subst h
    refine ⟨rfl, ?_⟩
    intro h2
    subst h2
    rfl

/-- Witness for C6: an event set before `wait` returns true with no
channel effects; an unset event whose receive fails still unsubscribes
after subscribing; an event set in the recheck window returns true. -/
theorem c6_event_wait_unsubscribes_witness :
    eventWait true false [] = (.ok (some true), [])
    ∧ (eventWait false false [.fail]).2 = [.subscribe, .unsubscribe]
    ∧ (eventWait false true []).1 = .ok (some true) := by
  refine ⟨(c6_event_wait_unsubscribes true false []).1 rfl, ?_, ?_⟩
  · exact ((c6_event_wait_unsubscribes false false [.fail]).2 rfl).1
  · exact ((c6_event_wait_unsubscribes false true []).2 rfl).2 rfl

/-- Invoking a class with keyword arguments never raises `Empty`. -/
theorem callClass_ne_empty (c : DClass) (kw : List (String × PVal))
    (now : Int) : callClass c kw now ≠ .error .empty := by
  unfold callClass
  intro h
  (repeat' split at h) <;> simp_all [ite_eq_iff]

/-- The object hook never raises `Empty`. -/
theorem customDecoder_ne_empty (fs : List (String × PVal)) (now : Int) :
    customDecoder fs now ≠ .error .empty := by
  unfold customDecoder
  intro h
  (repeat' split at h) <;>
    first
      | exact callClass_ne_empty _ _ _ h
      | simp_all

mutual

/-- Deserialization never raises `Empty` (its failures are lookup,
keyword and attribute errors), so `Queue.get` raises `Empty` exactly when
no element was obtained. -/
theorem decode_ne_empty (now : Int) (j : JVal) :
    decode now j ≠ .error .empty := by
  match j with
  | .jnull => simp [decode]
  | .jbool b => simp [decode]
  | .jint n => simp [decode]
  | .jstr s => simp [decode]
  | .jarr xs =>
    have h := decodeList_ne_empty now xs
    simp only [decode]
    intro hc
    cases hl : decodeList now xs with
    | ok v => rw [hl] at hc; simp [Except.map] at hc
    | error e =>
      rw [hl] at hc
      simp [Except.map] at hc
      exact h (by rw [hl, hc])
  | .jobj fs =>
    have h := decodeFields_ne_empty now fs
    simp only [decode]
    intro hc
    cases hl : decodeFields now fs with
    | ok v =>
      rw [hl] at hc
      simp [Except.bind] at hc
      exact customDecoder_ne_empty (dedupLast v) now hc
    | error e =>
      rw [hl] at hc
      simp [Except.bind] at hc
      exact h (by rw [hl, hc])

theorem decodeList_ne_empty (now : Int) (xs : List JVal) :
    decodeList now xs ≠ .error .empty := by
  match xs with
  | [] => simp [decodeList]
  | j :: rest =>
    have h1 := decode_ne_empty now j
    have h2 := decodeList_ne_empty now rest
    simp only [decodeList]
    intro hc
    cases hj : decode now j with
    | ok v =>
      rw [hj] at hc
      simp [Except.bind] at hc
      cases hr : decodeList now rest with
      | ok vs => rw [hr] at hc; simp [Except.map] at hc
      | error e =>
        rw [hr] at hc
        simp [Except.map] at hc
        exact h2 (by rw [hr, hc])
    | error e =>
      rw [hj] at hc
      simp [Except.bind] at hc
      exact h1 (by rw [hj, hc])

theorem decodeFields_ne_empty (now : Int) (fs : List (String × JVal)) :
    decodeFields now fs ≠ .error .empty := by
  match fs with
  | [] => simp [decodeFields]
  | (k, j) :: rest =>
    have h1 := decode_ne_empty now j
    have h2 := decodeFields_ne_empty now rest
    simp only [decodeFields]
    intro hc
    cases hj : decode now j with
    | ok v =>
      rw [hj] at hc
      simp [Except.bind] at hc
      cases hr : decodeFields now rest with
      | ok vs => rw [hr] at hc; simp [Except.map] at hc
      | error e =>
        rw [hr] at hc
        simp [Except.map] at hc
        exact h2 (by rw [hr, hc])
    | error e =>
      rw [hj] at hc
      simp [Except.bind] at hc
      exact h1 (by rw [hj, hc])

end

/-- C9: `Queue.get` raises `Empty` exactly when no item is obtained.
Non-blocking: an empty list raises `Empty` and a non-empty list pops and
deserializes the head immediately (never `Empty`, even on a decode
failure, which surfaces as its own error).  Blocking: `Empty` is raised
exactly when the store's blocking pop timed out with nothing available;
and both an unspecified timeout and a timeout of `0` are passed to the
store as `0`, its "block indefinitely". -/
theorem c9_queue_get_empty (now : Int) (j : JVal) (t : List JVal) :
    queueGetNonblock now [] = (.error .empty, [])
    ∧ queueGetNonblock now (j :: t) = (decode now j, t)
    ∧ (queueGetNonblock now (j :: t)).1 ≠ .error .empty
    ∧ queueGetBlock now none = .error .empty
    ∧ queueGetBlock now (some j) ≠ .error .empty
    ∧ blpopTimeoutArg none = 0 ∧ blpopTimeoutArg (some 0) = 0 := by
  refine ⟨rfl, rfl, ?_, rfl, ?_, rfl, rfl⟩
  · exact decode_ne_empty now j
  · exact decode_ne_empty now j

/-- Witness for C9 at concrete inputs: a non-blocking pop of the empty
list raises `Empty`, and a blocking pop whose store timeout elapsed
raises `Empty`. -/
theorem c9_queue_get_empty_witness :
    queueGetNonblock 0 [] = (.error .empty, [])
    ∧ queueGetBlock 0 none = .error .empty := by
  have h := c9_queue_get_empty 0 .jnull []
  exact ⟨h.1, h.2.2.2.1⟩

/-- Inserting a key not yet present appends. -/
theorem upsert_not_mem (acc : List (String × PVal)) (kv : String × PVal)
    (h : kv.1 ∉ acc.map Prod.fst) : upsert acc kv = acc ++ [kv] := by
  induction acc with
  | nil => rfl
  | cons hd tl ih =>
    simp only [List.map_cons, List.mem_cons, not_or] at h
    simp only [upsert]
    rw [if_neg (fun he => h.1 he.symm), ih h.2]
    rfl

/-- Folding duplicate-key collapse over fields whose keys are distinct
from each other and from the accumulator reproduces the fields. -/
theorem foldl_upsert_nodup (fs : List (String × PVal)) :
    ∀ acc : List (String × PVal),
      ((acc ++ fs).map Prod.fst).Nodup → fs.foldl upsert acc = acc ++ fs := by
  induction fs with
  | nil => intro acc _; simp
  | cons kv rest ih =>
    intro acc hnd
    have hmem : kv.1 ∉ acc.map Prod.fst := by
      rw [List.map_append, List.nodup_append] at hnd
      intro hm
      exact hnd.2.2 hm (by simp)
    calc (kv :: rest).foldl upsert acc
        = rest.foldl upsert (upsert acc kv) := rfl
      _ = rest.foldl upsert (acc ++ [kv]) := by
          rw [upsert_not_mem acc kv hmem]
      _ = (acc ++ [kv]) ++ rest := by
          refine ih (acc ++ [kv]) ?_
          have : ((acc ++ [kv]) ++ rest).map Prod.fst
              = (acc ++ kv :: rest).map Prod.fst := by simp
          rw [this]
          exact hnd
      _ = acc ++ kv :: rest := by simp

/-- Duplicate-key collapse is the identity on a genuine dict's fields. -/
theorem dedupLast_nodup (fs : List (String × PVal))
    (h : (fs.map Prod.fst).Nodup) : dedupLast fs = fs := by
  have := foldl_upsert_nodup fs [] (by simpa)
  simpa [dedupLast] using this

/-- The object hook passes a markerless mapping through unchanged. -/
theorem customDecoder_nomarker (fs : List (String × PVal)) (now : Int)
    (h : lookupField fs "__distributed_type__" = none) :
    customDecoder fs now = .ok (.pdict fs) := by
  unfold customDecoder
  rw [h]

mutual

/-- Round trip on plain data: the encoder leaves plain data structurally
intact and the hook passes every markerless mapping through, so `loads`
after `dumps` is the identity. -/
theorem decode_encode_plain (now : Int) (v : PVal) (h : plainB v = true) :
    decode now (encode v) = .ok v := by
  match v with
  | .pnull => rfl
  | .pbool b => rfl
  | .pint n => rfl
  | .pstr s => rfl
  | .plist xs =>
    have hx : plainListB xs = true := by simpa [plainB] using h
    simp only [encode, decode]
    rw [decodeList_encode_plain now xs hx]
    rfl
  | .pdict fs =>
    simp only [plainB, Bool.and_eq_true, decide_eq_true_eq,
      Option.isNone_iff_eq_none] at h
    obtain ⟨⟨hmk, hnd⟩, hpl⟩ := h
    simp only [encode, decode]
    rw [decodeFields_encode_plain now fs hpl]
    show customDecoder (dedupLast fs) now = .ok (.pdict fs)
    rw [dedupLast_nodup fs hnd, customDecoder_nomarker fs now hmk]
  | .pinst c attrs => simp [plainB] at h

theorem decodeList_encode_plain (now : Int) (xs : List PVal)
    (h : plainListB xs = true) : decodeList now (encodeList xs) = .ok xs := by
  match xs with
  | [] => rfl
  | v :: rest =>
    simp only [plainListB, Bool.and_eq_true] at h
    simp only [encodeList, decodeList]
    rw [decode_encode_plain now v h.1, decodeList_encode_plain now rest h.2]
    rfl

theorem decodeFields_encode_plain (now : Int) (fs : List (String × PVal))
    (h : plainFieldsB fs = true) :
    decodeFields now (encodeFields fs) = .ok fs := by
  match fs with
  | [] => rfl
  | (k, v) :: rest =>
    simp only [plainFieldsB, Bool.and_eq_true] at h
    simp only [encodeFields, decodeFields]
    rw [decode_encode_plain now v h.1, decodeFields_encode_plain now rest h.2]
    rfl

end

/-- C4: `loads` is a left inverse of `dumps`.  For plain data (primitive
scalars, sequences, markerless mappings) the round trip is the structural
identity.  For each registered serializable class, the round trip of a
constructed instance yields an instance of the same class whose public
(non-underscore) state — its `key` — equals the original's; private
configuration (`_redis`, and for `Lock` its `_expires`, `_timeout`,
`_start_time`) is not part of the wire state and is rebuilt from
constructor defaults and the decoding-time clock. -/
theorem c4_loads_dumps_roundtrip :
    (∀ (now : Int) (v : PVal), plainB v = true → decode now (encode v) = .ok v)
    ∧ (∀ (now : Int) (k : String) (rd ns : PVal),
        decode now (encode (pyInit .queue (.pstr k) rd ns))
          = .ok (pyInit .queue (.pstr k) .pnull .pnull)
        ∧ instClass (pyInit .queue (.pstr k) .pnull .pnull) = some .queue
        ∧ instPublicState (pyInit .queue (.pstr k) .pnull .pnull)
            = instPublicState (pyInit .queue (.pstr k) rd ns))
    ∧ (∀ (now : Int) (k : String) (rd ns : PVal),
        decode now (encode (pyInit .counter (.pstr k) rd ns))
          = .ok (pyInit .counter (.pstr k) .pnull .pnull)
        ∧ instClass (pyInit .counter (.pstr k) .pnull .pnull) = some .counter
        ∧ instPublicState (pyInit .counter (.pstr k) .pnull .pnull)
            = instPublicState (pyInit .counter (.pstr k) rd ns))
    ∧ (∀ (now : Int) (k : String) (rd ns : PVal),
        decode now (encode (pyInit .event (.pstr k) rd ns))
          = .ok (pyInit .event (.pstr k) .pnull .pnull)
        ∧ instClass (pyInit .event (.pstr k) .pnull .pnull) = some .event
        ∧ instPublicState (pyInit .event (.pstr k) .pnull .pnull)
            = instPublicState (pyInit .event (.pstr k) rd ns))
    ∧ (∀ (now ctime E T : Int) (k : String) (rd : PVal),
        decode now (encode (pyLockInit (.pstr k) (.pint E) (.pint T) rd ctime))
          = .ok (pyLockInit (.pstr k) (.pint 60) (.pint 10) .pnull now)
        ∧ instClass (pyLockInit (.pstr k) (.pint 60) (.pint 10) .pnull now)
            = some .lock
        ∧ instPublicState (pyLockInit (.pstr k) (.pint 60) (.pint 10) .pnull now)
            = instPublicState
                (pyLockInit (.pstr k) (.pint E) (.pint T) rd ctime)) := by
  refine ⟨decode_encode_plain, ?_, ?_, ?_, ?_⟩
  · intro now k rd ns
    exact ⟨rfl, rfl, rfl⟩
  · intro now k rd ns
    exact ⟨rfl, rfl, rfl⟩
  · intro now k rd ns
    exact ⟨rfl, rfl, rfl⟩
  · intro now ctime E T k rd
    exact ⟨rfl, rfl, rfl⟩

/-- Witness for C4 at concrete inputs: a plain nested value round-trips to
itself, and a `Lock` constructed with key `"test"`, a 5-second lease at
time 3, decoded at time 8, reconstructs with the same public state. -/
theorem c4_loads_dumps_roundtrip_witness :
    decode 0 (encode (.pdict [("a", .pint 1), ("b", .plist [.pnull, .pstr "x"])]))
      = .ok (.pdict [("a", .pint 1), ("b", .plist [.pnull, .pstr "x"])])
    ∧ decode 8 (encode (pyLockInit (.pstr "test") (.pint 5) (.pint 10) .pnull 3))
      = .ok (pyLockInit (.pstr "test") (.pint 60) (.pint 10) .pnull 8) := by
  constructor
  · exact c4_loads_dumps_roundtrip.1 0
      (.pdict [("a", .pint 1), ("b", .plist [.pnull, .pstr "x"])]) (by decide)
  · exact (c4_loads_dumps_roundtrip.2.2.2.2 8 3 5 10 "test" .pnull).1

/-- C5 counterexample: decoding the envelope whose tag `"Nope"` names no
registered type fails with the builtin `KeyError` from the `globals()`
lookup (line 205) — an error, but not a `DecodeError`: the code defines no
such class and the failure lies outside the library's own exception
hierarchy, contradicting the claim that the failure "is a DecodeError and
never a different exception type". -/
theorem c5_unknown_tag_counterexample :
    decode 0 (.jobj [("__distributed_type__", .jstr "Nope"),
        ("state", .jobj [])])
      = .error .keyError
    ∧ PyErr.isDistributedError .keyError = false := ⟨rfl, rfl⟩

/-- C5 amended: for every tagged envelope whose string tag names nothing
in the module's global namespace (in particular, any unregistered type
name), and whose other fields decode successfully, `loads` fails with a
`KeyError` — an error, never a silent pass-through of the raw mapping —
but not with a `DecodeError`, which does not exist in the code. -/
theorem c5_unknown_tag_keyerror (s : String) (hs : distGlobals s = none)
    (now : Int) (st : JVal) (stv : PVal) (hst : decode now st = .ok stv) :
    decode now (.jobj [("__distributed_type__", .jstr s), ("state", st)])
      = .error .keyError := by
  show Except.bind
      (decodeFields now [("__distributed_type__", .jstr s), ("state", st)])
      (fun fs2 => customDecoder (dedupLast fs2) now) = .error .keyError
  simp only [decodeFields, decode, hst]
  show customDecoder
      (dedupLast [("__distributed_type__", .pstr s), ("state", stv)]) now
      = .error .keyError
  show customDecoder [("__distributed_type__", .pstr s), ("state", stv)] now
      = .error .keyError
  unfold customDecoder
  simp [lookupField, hs]

/-- Witness for C5 amended: the tag `"Nope"` is absent from the module
namespace and the envelope with an empty state mapping fails with
`KeyError`. -/
theorem c5_unknown_tag_keyerror_witness :
    decode 7 (.jobj [("__distributed_type__", .jstr "Nope"),
        ("state", .jobj [])])
      = .error .keyError :=
  c5_unknown_tag_keyerror "Nope" (by decide) 7 (.jobj []) (.pdict []) rfl

/-- C7 counterexample: a `Counter` constructed with the explicit
namespace `"jobs"` and key `"k"` has store key `distributed:jobs:k`, yet
`increment` addresses `distributed:counter:k` — the hard-coded
`'distributed:counter:' + self.key` of line 81 ignores the instance's
namespace, contradicting the claim that every store operation addresses
`distributed:<namespace>:<key>`. -/
theorem c7_counter_namespace_counterexample :
    counterIncrementTarget (pyInit .counter (.pstr "k") .pnull (.pstr "jobs"))
      = some "distributed:counter:k"
    ∧ memberOpTarget (pyInit .counter (.pstr "k") .pnull (.pstr "jobs"))
      = some (.pstr "distributed:jobs:k")
    ∧ "distributed:counter:k" ≠ "distributed:jobs:k" :=
  ⟨rfl, rfl, by decide⟩

/-- C7 amended: every store operation of `Queue`, `Event` and `Lock`
addresses the instance's store key `distributed:<namespace>:<key>`, where
the namespace defaults to the lower-cased type name when none (or an
empty one) is supplied — and `Lock` always uses the default, since its
constructor forwards no namespace.  `Counter.increment`, however, always
addresses `distributed:counter:<key>`, whatever namespace the counter was
constructed with; this coincides with its store key exactly in the
default-namespace case. -/
theorem c7_store_key_formation :
    (∀ (k : String) (rd : PVal) (E T ct : Int),
      memberOpTarget (pyInit .queue (.pstr k) rd .pnull)
        = some (.pstr ("distributed:queue:" ++ k))
      ∧ memberOpTarget (pyInit .event (.pstr k) rd .pnull)
        = some (.pstr ("distributed:event:" ++ k))
      ∧ memberOpTarget (pyLockInit (.pstr k) (.pint E) (.pint T) rd ct)
        = some (.pstr ("distributed:lock:" ++ k))
      ∧ memberOpTarget (pyInit .counter (.pstr k) rd .pnull)
        = some (.pstr ("distributed:counter:" ++ k))
      ∧ counterIncrementTarget (pyInit .counter (.pstr k) rd .pnull)
        = some ("distributed:counter:" ++ k))
    ∧ (∀ (k ns : String) (rd : PVal), ns ≠ "" →
      memberOpTarget (pyInit .queue (.pstr k) rd (.pstr ns))
        = some (.pstr ("distributed:" ++ ns ++ ":" ++ k))
      ∧ counterIncrementTarget (pyInit .counter (.pstr k) rd (.pstr ns))
        = some ("distributed:counter:" ++ k)) := by
  constructor
  · intro k rd E T ct
    exact ⟨rfl, rfl, rfl, rfl, rfl⟩
  · intro k ns rd hns
    constructor
    · show memberOpTarget (pyInit .queue (.pstr k) rd (.pstr ns)) = _
      unfold pyInit pyBaseAttrs memberOpTarget instAttr lookupField
      simp [pyFalsy, pyRender, hns]
      rfl
    · rfl

/-- Witness for C7 amended at concrete inputs: a default-namespace
counter with key `"7"` increments its own store key
`distributed:counter:7`, and a queue under explicit namespace `"work"`
stores at `distributed:work:q1`. -/
theorem c7_store_key_formation_witness :
    counterIncrementTarget (pyInit .counter (.pstr "7") .pnull .pnull)
      = some "distributed:counter:7"
    ∧ memberOpTarget (pyInit .queue (.pstr "q1") .pnull (.pstr "work"))
      = some (.pstr "distributed:work:q1") := by
  constructor
  · exact (c7_store_key_formation.1 "7" .pnull 0 0 0).2.2.2.2
  · exact (c7_store_key_formation.2 "q1" "work" .pnull (by decide)).1

/-- Every schedule yields a reachable state of the unrestricted
(asynchronous) interleaving semantics. -/
theorem run_reach_false : ∀ (acts : List Act) (s : CSt),
    Reach false s (run s acts) := by
  intro acts
  induction acts with
  | nil => intro s; exact Relation.ReflTransGen.refl
  | cons a rest ih =>
    intro s
    refine Relation.ReflTransGen.head ?_ (ih (runAct s a))
    cases a with
    | ap => exact Step.pstep false s
    | aq => exact Step.qstep false s
    | atick d => exact Step.tick false s d (by simp)

/-- C1 counterexample: under the interleaving semantics of
`Lock.acquire`, two instances on the same key — one with a 9-second and
one with a 1-second lease — reach a state in which both have reported
`acquire() == true` and both their leases are simultaneously unexpired,
refuting the claimed mutual exclusion.  The failed `getset` exchange of
the losing contender overwrites the winner's stored deadline with its own
much earlier one (the best-effort race of lines 148-149), after which the
loser's retry reclaims the seemingly stale lock while the winner's lease
is still live. -/
theorem c1_mutual_exclusion_counterexample :
    Reach false c1CexInit (run c1CexInit c1CexScript)
    ∧ liveHolder (run c1CexInit c1CexScript).now
        (run c1CexInit c1CexScript).p = true
    ∧ liveHolder (run c1CexInit c1CexScript).now
        (run c1CexInit c1CexScript).q = true :=
  ⟨run_reach_false c1CexScript c1CexInit, by decide, by decide⟩

/-- Writing a deadline at least `now + E + 1` into the cell preserves the
per-client invariant of any client. -/
theorem pinv_write (E now : Int) (store : Option Int) (b : PSt)
    (hb : pinv E now store b) (e : Int) (he : now + E + 1 ≤ e) :
    pinv E now (some e) b := by
  obtain ⟨cb, phb⟩ := b
  cases phb <;> simp only [pinv] at hb ⊢
  case holding s =>
    obtain ⟨hs, _⟩ := hb
    exact ⟨hs, fun _ => ⟨e, rfl, by omega⟩⟩
  all_goals exact hb

/-- Deleting the cell preserves the per-client invariant of a client that
is not a live holder. -/
theorem pinv_erase (E now : Int) (store : Option Int) (b : PSt)
    (hbE : b.cfg.E = E) (hb : pinv E now store b)
    (hnl : liveHolder now b = false) : pinv E now none b := by
  obtain ⟨cb, phb⟩ := b
  have hbe2 : cb.E = E := hbE
  cases phb <;> simp only [pinv] at hb ⊢
  case holding s =>
    simp only [liveHolder, decide_eq_false_iff_not] at hnl
    exact ⟨hb.1, fun hl => absurd (by omega : now - s < cb.E) hnl⟩
  all_goals exact hb

/-- Advancing the clock preserves the per-client invariant of a client
that is not mid-attempt. -/
theorem pinv_tick (E now : Int) (d : Nat) (store : Option Int) (x : PSt)
    (hx : pinv E now store x) (hp : pending x.ph = false) :
    pinv E (now + (d + 1)) store x := by
  obtain ⟨cx, phx⟩ := x
  cases phx <;> simp only [pending] at hp <;> simp only [pinv] at hx ⊢
  case holding s =>
    obtain ⟨hs, himp⟩ := hx
    refine ⟨by omega, fun hl => ?_⟩
    obtain ⟨w, hw, hwb⟩ := himp (by omega)
    exact ⟨w, hw, hwb⟩
  all_goals first | exact hx | exact hp.elim | trivial

/-- A holder live after a clock advance was live before it. -/
theorem live_tick (now : Int) (d : Nat) (x : PSt)
    (h : liveHolder (now + (d + 1)) x = true) : liveHolder now x = true := by
  obtain ⟨cx, phx⟩ := x
  cases phx <;> simp only [liveHolder, decide_eq_true_eq] at h ⊢
  case holding s => omega
  all_goals exact h

/-- One atomic operation of a client preserves mutual exclusion of live
holders and both per-client invariants, when both instances share the
lease duration `E`. -/
theorem lstep_inv (E now : Int) (store : Option Int) (ca : PCfg)
    (pha : Phase) (b : PSt) (haE : ca.E = E) (hbE : b.cfg.E = E)
    (hmx : ¬(liveHolder now ⟨ca, pha⟩ = true ∧ liveHolder now b = true))
    (hpa : pinv E now store ⟨ca, pha⟩) (hpb : pinv E now store b) :
    ¬(liveHolder now ⟨ca, (lstep ca pha store now).1⟩ = true
        ∧ liveHolder now b = true)
    ∧ pinv E now (lstep ca pha store now).2 ⟨ca, (lstep ca pha store now).1⟩
    ∧ pinv E now (lstep ca pha store now).2 b := by
  cases pha with
  | idle =>
    exact ⟨by simp [lstep, liveHolder], trivial, hpb⟩
  | loopTop t =>
    simp only [lstep]
    split
    · exact ⟨by simp [liveHolder], trivial, hpb⟩
    · exact ⟨by simp [liveHolder], by simp [pinv, haE], hpb⟩
  | comp t e =>
    simp only [pinv] at hpa
    cases store with
    | none =>
      simp only [lstep]
      refine ⟨?_, ?_, ?_⟩
      · rintro ⟨-, hbl⟩
        obtain ⟨cb, phb⟩ := b
        have hbe2 : cb.E = E := hbE
        cases phb <;> simp only [liveHolder, decide_eq_true_eq] at hbl
        case holding s =>
          simp only [pinv] at hpb
          obtain ⟨w, hw, -⟩ := hpb.2 (by omega)
          exact Option.noConfusion hw
        all_goals exact Bool.noConfusion hbl
      · exact ⟨le_refl now, fun _ => ⟨e, rfl, by omega⟩⟩
      · exact pinv_write E now none b hpb e (by omega)
    | some v =>
      simp only [lstep]
      exact ⟨by simp [liveHolder], by simp [pinv, hpa], hpb⟩
  | snxF t e =>
    simp only [pinv] at hpa
    exact ⟨by simp [lstep, liveHolder], by simp [lstep, pinv, hpa], hpb⟩
  | readV t e v =>
    simp only [pinv] at hpa
    cases v with
    | none => exact ⟨by simp [lstep, liveHolder], trivial, hpb⟩
    | some w =>
      simp only [lstep]
      split
      · exact ⟨by simp [liveHolder], by simp [pinv]; omega, hpb⟩
      · exact ⟨by simp [liveHolder], trivial, hpb⟩
  | staleOk t e w =>
    simp only [pinv] at hpa
    obtain ⟨hae, haw⟩ := hpa
    simp only [lstep]
    split
    case isTrue hseq =>
      refine ⟨?_, ?_, ?_⟩
      · rintro ⟨-, hbl⟩
        obtain ⟨cb, phb⟩ := b
        have hbe2 : cb.E = E := hbE
        cases phb <;> simp only [liveHolder, decide_eq_true_eq] at hbl
        case holding s =>
          simp only [pinv] at hpb
          obtain ⟨w2, hw2, hwb⟩ := hpb.2 (by omega)
          rw [hseq] at hw2
          have hww : w = w2 := by injection hw2
          omega
        all_goals exact Bool.noConfusion hbl
      · exact ⟨le_refl now, fun _ => ⟨e, rfl, by omega⟩⟩
      · exact pinv_write E now store b hpb e (by omega)
    case isFalse =>
      exact ⟨by simp [liveHolder], trivial,
        pinv_write E now store b hpb e (by omega)⟩
  | noStale t =>
    simp only [lstep]
    split
    · exact ⟨by simp [liveHolder], trivial, hpb⟩
    · exact ⟨by simp [liveHolder], trivial, hpb⟩
  | holding s =>
    simp only [pinv] at hpa
    simp only [lstep]
    split
    case isTrue hlt =>
      have hal : liveHolder now (⟨ca, .holding s⟩ : PSt) = true := by
        simp only [liveHolder, decide_eq_true_eq]
        exact hlt
      have hbl : liveHolder now b = false := by
        cases hq : liveHolder now b
        · rfl
        · exact absurd ⟨hal, hq⟩ hmx
      exact ⟨by simp [liveHolder], trivial,
        pinv_erase E now store b hbE hpb hbl⟩
    case isFalse =>
      exact ⟨by simp [liveHolder], trivial, hpb⟩
  | failed =>
    exact ⟨by simp [lstep, liveHolder], trivial, hpb⟩
  | released =>
    exact ⟨by simp [lstep, liveHolder], trivial, hpb⟩

/-- The invariant is preserved by every step of the synchronous system. -/
theorem step_INV (E : Int) {s s2 : CSt} (h : Step true s s2)
    (hI : INV E s) : INV E s2 := by
  obtain ⟨hpE, hqE, hmx, hpp, hpq⟩ := hI
  cases h with
  | tick d hg =>
    obtain ⟨hp, hq⟩ := hg rfl
    refine ⟨hpE, hqE, ?_, ?_, ?_⟩
    · rintro ⟨h1, h2⟩
      exact hmx ⟨live_tick s.now d s.p h1, live_tick s.now d s.q h2⟩
    · exact pinv_tick E s.now d s.store s.p hpp hp
    · exact pinv_tick E s.now d s.store s.q hpq hq
  | pstep =>
    obtain ⟨h1, h2, h3⟩ :=
      lstep_inv E s.now s.store s.p.cfg s.p.ph s.q hpE hqE hmx hpp hpq
    exact ⟨hpE, hqE, h1, h2, h3⟩
  | qstep =>
    obtain ⟨h1, h2, h3⟩ :=
      lstep_inv E s.now s.store s.q.cfg s.q.ph s.p hqE hpE
        (fun hb => hmx ⟨hb.2, hb.1⟩) hpq hpp
    exact ⟨hpE, hqE, fun hb => h1 ⟨hb.2, hb.1⟩, h3, h2⟩

/-- The invariant holds at every state the synchronous system reaches
from a state satisfying it. -/
theorem reach_INV (E : Int) {s0 s : CSt} (h : Reach true s0 s)
    (h0 : INV E s0) : INV E s := by
  induction h with
  | refl => exact h0
  | tail _ hstep ih => exact step_INV E hstep ih

/-- C1 amended: two `Lock` instances on the same key never both hold
unexpired leases simultaneously, provided (a) they are configured with
the same `expires` duration, and (b) no clock advance occurs between a
client's lease-deadline computation and the store write concluding the
same attempt (the synchronous traces `Reach true`).  Dropping either
proviso admits the violating interleavings of the counterexample: with
unequal durations a failed exchange plants a short deadline over a live
long lease, and with mid-attempt delays a winner can install an
already-stale deadline. -/
theorem c1_mutual_exclusion_amended (n0 : Int) (store0 : Option Int)
    (cp cq : PCfg) (hE : cp.E = cq.E) (s : CSt)
    (h : Reach true (initSt n0 store0 cp cq) s) :
    ¬(liveHolder s.now s.p = true ∧ liveHolder s.now s.q = true) := by
  have h0 : INV cp.E (initSt n0 store0 cp cq) := by
    refine ⟨rfl, hE.symm, ?_, trivial, trivial⟩
    rintro ⟨h1, -⟩
    exact Bool.noConfusion h1
  exact (reach_INV cp.E h h0).2.2.1

/-- Witness for C1 amended: at the initial state itself (reachable by the
empty trace, default configurations, empty store) the two clients do not
both hold live leases. -/
theorem c1_mutual_exclusion_amended_witness :
    ¬(liveHolder (initSt 0 none ⟨60, 10, true⟩ ⟨60, 10, true⟩).now
        (initSt 0 none ⟨60, 10, true⟩ ⟨60, 10, true⟩).p = true
      ∧ liveHolder (initSt 0 none ⟨60, 10, true⟩ ⟨60, 10, true⟩).now
        (initSt 0 none ⟨60, 10, true⟩ ⟨60, 10, true⟩).q = true) :=
  c1_mutual_exclusion_amended 0 none ⟨60, 10, true⟩ ⟨60, 10, true⟩ rfl _
    Relation.ReflTransGen.refl

end Cut
